import Mathlib

/-!
# Wormhole: the rustdoc implementor indexes

The two scripts under `trait.impl/clap_builder/derive/` are generated index
files.  Each one builds a table `implementors` with `Object.fromEntries` from an
array literal, hands it to `window.register_implementors` when that is set and
parks it in `window.pending_implementors` otherwise, and ends in a comment that
records where the crate fragments lie in the text.

The development below embeds the text of both scripts, a reader for the array
literal, the table it denotes, and the effect of the script on `window`.
-/

set_option maxRecDepth 1000000
set_option autoImplicit false

namespace Wormhole

/-! ## Data model -/

/-- One element of the array handed to `Object.fromEntries`: the crate name and
the list of implementor entries, each entry itself an array of strings. -/
abbrev CrateEntry := String × List (List String)

/-- Text of `trait.impl/clap_builder/derive/trait.Args.js`, character for character. -/
def argsSource : String :=
  "(function() \x7b\n    var implementors = Object.fromEntries([[\"wormhole\",[[\"impl Args for <a class=\\\"struct\\\" href=\\\"wormhole/cli/struct.Cli.html\\\" title=\\\"struct wormhole::cli::Cli\\\">Cli</a>\"],[\"impl Args for <a class=\\\"struct\\\" href=\\\"wormhole/cli/struct.GetHostsArgs.html\\\" title=\\\"struct wormhole::cli::GetHostsArgs\\\">GetHostsArgs</a>\"],[\"impl Args for <a class=\\\"struct\\\" href=\\\"wormhole/cli/struct.IdentifyPodArgs.html\\\" title=\\\"struct wormhole::cli::IdentifyPodArgs\\\">IdentifyPodArgs</a>\"],[\"impl Args for <a class=\\\"struct\\\" href=\\\"wormhole/cli/struct.IdentifyPodGroup.html\\\" title=\\\"struct wormhole::cli::IdentifyPodGroup\\\">IdentifyPodGroup</a>\"],[\"impl Args for <a class=\\\"struct\\\" href=\\\"wormhole/cli/struct.NewArgs.html\\\" title=\\\"struct wormhole::cli::NewArgs\\\">NewArgs</a>\"],[\"impl Args for <a class=\\\"struct\\\" href=\\\"wormhole/cli/struct.PodConfArgs.html\\\" title=\\\"struct wormhole::cli::PodConfArgs\\\">PodConfArgs</a>\"],[\"impl Args for <a class=\\\"struct\\\" href=\\\"wormhole/cli/struct.RemoveArgs.html\\\" title=\\\"struct wormhole::cli::RemoveArgs\\\">RemoveArgs</a>\"],[\"impl Args for <a class=\\\"struct\\\" href=\\\"wormhole/cli/struct.TemplateArg.html\\\" title=\\\"struct wormhole::cli::TemplateArg\\\">TemplateArg</a>\"]]],[\"wormholed\",[[\"impl Args for <a class=\\\"struct\\\" href=\\\"wormholed/struct.ServiceArgs.html\\\" title=\\\"struct wormholed::ServiceArgs\\\">ServiceArgs</a>\"]]]]);\n    if (window.register_implementors) \x7b\n        window.register_implementors(implementors);\n    \x7d else \x7b\n        window.pending_implementors = implementors;\n    \x7d\n\x7d)()\n//\x7b\"start\":57,\"fragment_lengths\":[1157,153]\x7d\n"

/-- The array literal handed to `Object.fromEntries` in `trait.Args.js`:
each element is a pair `[crateName, [[doc], ...]]`, with the JavaScript string
escapes decoded. -/
def argsEntries : List CrateEntry :=
  [("wormhole",
     [["impl Args for <a class=\"struct\" href=\"wormhole/cli/struct.Cli.html\" title=\"struct wormhole::cli::Cli\">Cli</a>"],
      ["impl Args for <a class=\"struct\" href=\"wormhole/cli/struct.GetHostsArgs.html\" title=\"struct wormhole::cli::GetHostsArgs\">GetHostsArgs</a>"],
      ["impl Args for <a class=\"struct\" href=\"wormhole/cli/struct.IdentifyPodArgs.html\" title=\"struct wormhole::cli::IdentifyPodArgs\">IdentifyPodArgs</a>"],
      ["impl Args for <a class=\"struct\" href=\"wormhole/cli/struct.IdentifyPodGroup.html\" title=\"struct wormhole::cli::IdentifyPodGroup\">IdentifyPodGroup</a>"],
      ["impl Args for <a class=\"struct\" href=\"wormhole/cli/struct.NewArgs.html\" title=\"struct wormhole::cli::NewArgs\">NewArgs</a>"],
      ["impl Args for <a class=\"struct\" href=\"wormhole/cli/struct.PodConfArgs.html\" title=\"struct wormhole::cli::PodConfArgs\">PodConfArgs</a>"],
      ["impl Args for <a class=\"struct\" href=\"wormhole/cli/struct.RemoveArgs.html\" title=\"struct wormhole::cli::RemoveArgs\">RemoveArgs</a>"],
      ["impl Args for <a class=\"struct\" href=\"wormhole/cli/struct.TemplateArg.html\" title=\"struct wormhole::cli::TemplateArg\">TemplateArg</a>"]]),
   ("wormholed",
     [["impl Args for <a class=\"struct\" href=\"wormholed/struct.ServiceArgs.html\" title=\"struct wormholed::ServiceArgs\">ServiceArgs</a>"]])]

/-- Text of `trait.impl/clap_builder/derive/trait.CommandFactory.js`, character for character. -/
def commandFactorySource : String :=
  "(function() \x7b\n    var implementors = Object.fromEntries([[\"wormhole\",[[\"impl CommandFactory for <a class=\\\"struct\\\" href=\\\"wormhole/cli/struct.Cli.html\\\" title=\\\"struct wormhole::cli::Cli\\\">Cli</a>\"],[\"impl CommandFactory for <a class=\\\"struct\\\" href=\\\"wormhole/service/clap/struct.ServiceArgs.html\\\" title=\\\"struct wormhole::service::clap::ServiceArgs\\\">ServiceArgs</a>\"]]]]);\n    if (window.register_implementors) \x7b\n        window.register_implementors(implementors);\n    \x7d else \x7b\n        window.pending_implementors = implementors;\n    \x7d\n\x7d)()\n//\x7b\"start\":57,\"fragment_lengths\":[317]\x7d"

/-- The array literal handed to `Object.fromEntries` in `trait.CommandFactory.js`:
each element is a pair `[crateName, [[doc], ...]]`, with the JavaScript string
escapes decoded. -/
def commandFactoryEntries : List CrateEntry :=
  [("wormhole",
     [["impl CommandFactory for <a class=\"struct\" href=\"wormhole/cli/struct.Cli.html\" title=\"struct wormhole::cli::Cli\">Cli</a>"],
      ["impl CommandFactory for <a class=\"struct\" href=\"wormhole/service/clap/struct.ServiceArgs.html\" title=\"struct wormhole::service::clap::ServiceArgs\">ServiceArgs</a>"]])]

/-! ## Reading the script text -/

/-- The double quote character. -/
def dq : Char := Char.ofNat 34

/-- The backslash character. -/
def bs : Char := Char.ofNat 92

/-- Removes `pat` from the front of `s`, failing when `s` does not start with it. -/
def stripHead : List Char → List Char → Option (List Char)
  | [], s => some s
  | _ :: _, [] => none
  | p :: ps, c :: cs => if p = c then stripHead ps cs else none

/-- Body of a double-quoted JavaScript string literal, after the opening quote:
returns the decoded characters and the text after the closing quote.  Only the
escapes that occur in the scripts (an escaped quote or backslash) are read. -/
def readStringBody : List Char → Option (List Char × List Char)
  | [] => none
  | c :: cs =>
    if c = dq then some ([], cs)
    else if c = bs then
      match cs with
      | [] => none
      | d :: ds =>
        if d = dq ∨ d = bs then
          match readStringBody ds with
          | some (body, rest) => some (d :: body, rest)
          | none => none
        else none
    else
      match readStringBody cs with
      | some (body, rest) => some (c :: body, rest)
      | none => none

/-- A double-quoted string literal. -/
def readString : List Char → Option (String × List Char)
  | [] => none
  | c :: cs =>
    if c = dq then
      match readStringBody cs with
      | some (body, rest) => some (String.mk body, rest)
      | none => none
    else none

/-- Elements of an array literal after the first one has been read: either the
closing bracket, or a comma and one more element.  The fuel bounds the number of
elements. -/
def readItems {α : Type} (item : List Char → Option (α × List Char)) :
    Nat → List Char → Option (List α × List Char)
  | 0, _ => none
  | _ + 1, [] => none
  | fuel + 1, c :: cs =>
    if c = ']' then some ([], cs)
    else if c = ',' then
      match item cs with
      | some (a, rest) =>
        match readItems item fuel rest with
        | some (more, rest2) => some (a :: more, rest2)
        | none => none
      | none => none
    else none

/-- An array literal `[item,item,...]` without white space. -/
def readArray {α : Type} (item : List Char → Option (α × List Char))
    (s : List Char) : Option (List α × List Char) :=
  match s with
  | [] => none
  | c :: cs =>
    if c = '[' then
      match cs with
      | [] => none
      | d :: ds =>
        if d = ']' then some ([], ds)
        else
          match item cs with
          | some (a, rest) =>
            match readItems item s.length rest with
            | some (more, rest2) => some (a :: more, rest2)
            | none => none
          | none => none
    else none

/-- One implementor entry: an array of string literals. -/
def readImpl (s : List Char) : Option (List String × List Char) :=
  readArray readString s

/-- One crate entry `["crate",[entry,...]]`. -/
def readCrateEntry (s : List Char) : Option (CrateEntry × List Char) :=
  match stripHead ['['] s with
  | none => none
  | some r1 =>
    match readString r1 with
    | none => none
    | some (crate, r2) =>
      match stripHead [','] r2 with
      | none => none
      | some r3 =>
        match readArray readImpl r3 with
        | none => none
        | some (impls, r4) =>
          match stripHead [']'] r4 with
          | none => none
          | some r5 => some ((crate, impls), r5)

/-- The whole array literal handed to `Object.fromEntries`. -/
def readEntries (s : List Char) : Option (List CrateEntry × List Char) :=
  readArray readCrateEntry s

/-- Text of either script up to the array literal. -/
def scriptHead : String :=
  "(function() \x7b\n    var implementors = Object.fromEntries("

/-- Text of either script between the array literal and the trailing comment:
the conditional hand-over of the table. -/
def scriptTail : String :=
  ");\n    if (window.register_implementors) \x7b\n        window.register_implementors(implementors);\n    \x7d else \x7b\n        window.pending_implementors = implementors;\n    \x7d\n\x7d)()\n"

/-- Splits a script into the table its array literal denotes and the text that
follows the closing line of the function, failing when the text is not of the
generated form. -/
def readScript (src : String) : Option (List CrateEntry × List Char) :=
  match stripHead scriptHead.data src.data with
  | none => none
  | some r1 =>
    match readEntries r1 with
    | none => none
    | some (es, r2) =>
      match stripHead scriptTail.data r2 with
      | none => none
      | some r3 => some (es, r3)

/-- Decimal digits at the front of the text, accumulated onto `acc`. -/
def readDigits : Nat → List Char → Nat × List Char
  | acc, [] => (acc, [])
  | acc, c :: cs =>
    if c.isDigit then readDigits (acc * 10 + (c.toNat - 48)) cs else (acc, c :: cs)

/-- A non-empty decimal number. -/
def readNat (s : List Char) : Option (Nat × List Char) :=
  match s with
  | [] => none
  | c :: _ => if c.isDigit then some (readDigits 0 s) else none

/-- The trailing comment: two slashes and an object with the keys `start` and
`fragment_lengths`.  Returns both values and the text after the closing brace. -/
def readOffsets (s : List Char) : Option ((Nat × List Nat) × List Char) :=
  match stripHead "//\x7b\"start\":".data s with
  | none => none
  | some r1 =>
    match readNat r1 with
    | none => none
    | some (start, r2) =>
      match stripHead ",\"fragment_lengths\":".data r2 with
      | none => none
      | some r3 =>
        match readArray readNat r3 with
        | none => none
        | some (ls, r4) =>
          match stripHead "\x7d".data r4 with
          | none => none
          | some r5 => some ((start, ls), r5)

/-- The offsets recorded in the last line of a script; the line may or may not
end in a line feed. -/
def offsetComment (src : String) : Option (Nat × List Nat) :=
  match readScript src with
  | none => none
  | some (_, r) =>
    match readOffsets r with
    | none => none
    | some (v, rest) => if rest = [] ∨ rest = ['\n'] then some v else none

/-- Character of the text at a zero-based offset.  The scripts are plain ASCII,
so offsets in characters, bytes and UTF-16 code units coincide. -/
def charAt (src : String) (i : Nat) : Option Char :=
  src.data.get? i

/-- Offset at which fragment `i` starts: `start` plus the lengths before it. -/
def fragmentStart (s : Nat) (ls : List Nat) (i : Nat) : Nat :=
  s + (ls.take i).sum

/-- Text of fragment `i`: `ls[i]` characters from its start offset. -/
def fragment (src : String) (s : Nat) (ls : List Nat) (i : Nat) : List Char :=
  (src.data.drop (fragmentStart s ls i)).take (ls.getD i 0)

/-- The crate entry written in fragment `i` and the text of the fragment left
over after it.  Every fragment but the first starts with the separating comma. -/
def fragmentEntry (src : String) (s : Nat) (ls : List Nat) (i : Nat) :
    Option (CrateEntry × List Char) :=
  if i = 0 then readCrateEntry (fragment src s ls i)
  else
    match fragment src s ls i with
    | [] => none
    | c :: r => if c = ',' then readCrateEntry r else none

/-- The comment `start = s`, `fragment_lengths = ls` describes the text `src`
whose array literal denotes `es`. -/
def OffsetsDescribe (src : String) (s : Nat) (ls : List Nat) (es : List CrateEntry) : Prop :=
  offsetComment src = some (s, ls) ∧
  src.data.take (s - 1) = scriptHead.data ∧
  charAt src (s - 1) = some '[' ∧
  (readEntries (src.data.drop (s - 1))).map Prod.fst = some es ∧
  ls.length = es.length ∧
  (∀ i ∈ List.range ls.length, fragmentEntry src s ls i = es[i]?.map (fun e => (e, []))) ∧
  charAt src (s + ls.sum) = some ']' ∧
  (readEntries (src.data.drop (s - 1))).map Prod.snd = some (src.data.drop (s + ls.sum + 1))

instance (src : String) (s : Nat) (ls : List Nat) (es : List CrateEntry) :
    Decidable (OffsetsDescribe src s ls es) := by
  unfold OffsetsDescribe; infer_instance

/-! ## The table built by `Object.fromEntries` -/

/-- Assignment `m[k] = v` on an object kept as a list of properties in insertion
order: an existing key keeps its place and takes the new value, a new key goes
to the end. -/
def objectSet {V : Type} : List (String × V) → String → V → List (String × V)
  | [], k, v => [(k, v)]
  | (k0, v0) :: rest, k, v =>
    if k0 = k then (k0, v) :: rest else (k0, v0) :: objectSet rest k v

/-- The object `Object.fromEntries` builds from a list of key/value pairs, read
from left to right. -/
def fromEntries {V : Type} (es : List (String × V)) : List (String × V) :=
  es.foldl (fun m e => objectSet m e.1 e.2) []

/-- The table `implementors` of `trait.Args.js`. -/
def argsImplementors : List CrateEntry :=
  fromEntries argsEntries

/-- The table `implementors` of `trait.CommandFactory.js`. -/
def commandFactoryImplementors : List CrateEntry :=
  fromEntries commandFactoryEntries

/-- Crate keys of a table, in order. -/
def crateKeys (m : List CrateEntry) : List String :=
  m.map Prod.fst

/-! ## Reading an implementor entry -/

/-- Text after the first occurrence of `pat`. -/
def afterFirst (pat : List Char) : List Char → Option (List Char)
  | [] => if pat = [] then some [] else none
  | c :: cs =>
    match stripHead pat (c :: cs) with
    | some r => some r
    | none => afterFirst pat cs

/-- Value of the attribute `name="..."` in the markup of a documentation string. -/
def attrValue (name : String) (doc : String) : Option String :=
  match afterFirst (' ' :: name.data ++ ['=', dq]) doc.data with
  | some r => some (String.mk (r.takeWhile fun c => c ≠ dq))
  | none => none

/-- Text content of the anchor: what stands between the end of the opening tag
and the start of the closing tag. -/
def anchorText (doc : String) : Option String :=
  match afterFirst ['>'] doc.data with
  | some r => some (String.mk (r.takeWhile fun c => c ≠ '<'))
  | none => none

/-- The `href` of an entry holding exactly one documentation string. -/
def entryHref : List String → Option String
  | [doc] => attrValue "href" doc
  | _ => none

/-- The path named in the `title` of an entry holding exactly one documentation
string: the title less its leading word `struct`. -/
def entryTitlePath : List String → Option String
  | [doc] =>
    match attrValue "title" doc with
    | some t =>
      match stripHead "struct ".data t.data with
      | some r => some (String.mk r)
      | none => none
    | none => none
  | _ => none

/-- The struct an entry names: the text of its anchor. -/
def entryName : List String → Option String
  | [doc] => anchorText doc
  | _ => none

/-- Struct names listed under one crate, in order. -/
def structNames (c : CrateEntry) : List (Option String) :=
  c.2.map entryName

/-- Struct names listed under crate key `k` of a table; empty when the key is
absent. -/
def structsUnder (m : List CrateEntry) (k : String) : List (Option String) :=
  match m.lookup k with
  | some impls => impls.map entryName
  | none => []

/-- All struct names of a table, across its crate keys. -/
def allStructs (m : List CrateEntry) : List (Option String) :=
  (m.map structNames).flatten

/-- Splits a path at each `::`; `acc` holds the current segment reversed. -/
def splitPath : List Char → List Char → List String
  | acc, [] => [String.mk acc.reverse]
  | acc, [c] => [String.mk (c :: acc).reverse]
  | acc, c :: d :: cs =>
    if c = ':' ∧ d = ':' then String.mk acc.reverse :: splitPath [] cs
    else splitPath (c :: acc) (d :: cs)

/-- Segments of the title path of an entry; empty when the entry has no title. -/
def entryPath (e : List String) : List String :=
  match entryTitlePath e with
  | some p => splitPath [] p.data
  | none => []

/-- A path segment: a non-empty run of letters, digits and underscores. -/
def isIdent (s : String) : Bool :=
  !s.data.isEmpty && s.data.all fun c => c.isAlphanum || c = '_'

/-- The `href` that belongs to a path: the last segment `N` becomes
`struct.N.html` and the segments are joined by slashes. -/
def hrefOfPath (path : List String) : String :=
  "/".intercalate (path.dropLast ++ ["struct." ++ path.getLastD "" ++ ".html"])

/-- The documentation string rustdoc writes for an implementation of `trait` by
the struct at `path`. -/
def docString (trait : String) (path : List String) : String :=
  "impl " ++ trait ++ " for <a class=\"struct\" href=\"" ++ hrefOfPath path ++
    "\" title=\"struct " ++ "::".intercalate path ++ "\">" ++ path.getLastD "" ++ "</a>"

/-- The string `s` starts with `pat`. -/
def startsWith (pat s : String) : Bool :=
  (stripHead pat.data s.data).isSome

/-- Every entry of the table that names `ServiceArgs` stands under the crate key
`wormholed`, and its title path and its `href` start with that crate name. -/
def ServiceArgsUnderWormholed (m : List CrateEntry) : Prop :=
  ∀ c ∈ m, ∀ e ∈ c.2, entryName e = some "ServiceArgs" →
    c.1 = "wormholed" ∧
    (∃ t, entryTitlePath e = some t ∧ startsWith "wormholed::" t = true) ∧
    (∃ h, entryHref e = some h ∧ startsWith "wormholed/" h = true)

/-! ## String order -/

/-- The order `<` of JavaScript on strings: code unit by code unit, a proper
initial segment first.  On ASCII text code units are the characters. -/
def codeUnitsLt : List Char → List Char → Bool
  | [], [] => false
  | [], _ :: _ => true
  | _ :: _, [] => false
  | a :: as, b :: bs =>
    if a.toNat < b.toNat then true
    else if b.toNat < a.toNat then false
    else codeUnitsLt as bs

/-- Strict string order. -/
def jsLt (a b : String) : Bool :=
  codeUnitsLt a.data b.data

/-- Entry `a` names a struct that comes strictly before the struct of `b`. -/
def entryLt (a b : List String) : Bool :=
  match entryName a, entryName b with
  | some x, some y => jsLt x y
  | _, _ => false

/-! ## The command line surface -/

/-- Spec side: the subcommands of the CLI surface, in the order of section 6 of
the specification. -/
def specSubcommands : List String :=
  ["new", "remove", "get-hosts", "identify-pod", "identify-pod-group", "pod-conf", "template"]

/-- Spec side: the argument struct that belongs to a subcommand. -/
def specArgStruct : String → Option String
  | "new" => some "NewArgs"
  | "remove" => some "RemoveArgs"
  | "get-hosts" => some "GetHostsArgs"
  | "identify-pod" => some "IdentifyPodArgs"
  | "identify-pod-group" => some "IdentifyPodGroup"
  | "pod-conf" => some "PodConfArgs"
  | "template" => some "TemplateArg"
  | _ => none

/-! ## The effect of a script on `window` -/

/-- JavaScript values as far as the scripts can meet them in a property of
`window`. -/
inductive JSValue where
  | undefined
  | null
  | bool (b : Bool)
  | number (n : Int)
  | nan
  | string (s : String)
  | table (m : List CrateEntry)
  | object (ref : Nat)
  | func (ref : Nat)
  deriving DecidableEq, Repr

/-- Conversion to a boolean as done by `if (...)`. -/
def truthy : JSValue → Bool
  | .undefined => false
  | .null => false
  | .bool b => b
  | .number n => n ≠ 0
  | .nan => false
  | .string s => s ≠ ""
  | .table _ => true
  | .object _ => true
  | .func _ => true

/-- The properties of `window`; an absent property reads as `undefined`. -/
abbrev Window := String → JSValue

/-- Assignment `window[k] = v`. -/
def setProp (w : Window) (k : String) (v : JSValue) : Window :=
  fun k0 => if k0 = k then v else w k0

/-- A call made by the script: the function called and its arguments. -/
structure Call where
  callee : Nat
  args : List JSValue
  deriving DecidableEq, Repr

/-- How the script ends. -/
inductive Completion where
  | normal
  | typeError
  deriving DecidableEq, Repr

/-- Outcome of running a script: the window afterwards, the calls the script
made, the properties of `window` the script assigned itself, and how it ended. -/
structure Run where
  window : Window
  calls : List Call
  writes : List String
  completion : Completion

/-- The body of either script, for the array literal `es`.  `apply f args w` is
the window left by a call of the function `f` on `args` in window `w`.

    var implementors = Object.fromEntries(es);
    if (window.register_implementors) window.register_implementors(implementors);
    else window.pending_implementors = implementors;

Calling a value that is not a function ends the script with a `TypeError`. -/
def runBody (es : List CrateEntry) (apply : Nat → List JSValue → Window → Window)
    (w : Window) : Run :=
  let implementors := JSValue.table (fromEntries es)
  if truthy (w "register_implementors") then
    match w "register_implementors" with
    | .func f =>
      { window := apply f [implementors] w
        calls := [{ callee := f, args := [implementors] }]
        writes := []
        completion := .normal }
    | _ => { window := w, calls := [], writes := [], completion := .typeError }
  else
    { window := setProp w "pending_implementors" implementors
      calls := []
      writes := ["pending_implementors"]
      completion := .normal }

/-- Runs the script with text `src`; `none` when the text is not of the
generated form. -/
def runScript (src : String) (apply : Nat → List JSValue → Window → Window)
    (w : Window) : Option Run :=
  match readScript src with
  | some (es, _) => some (runBody es apply w)
  | none => none

/-! ## The coordination core described by the specification -/

/-- Lifecycle states of a pod (section 4.4). -/
inductive PodState where
  | pending
  | running
  | removing
  | removed
  | orphaned
  deriving DecidableEq, Repr

/-- A pod (section 3): identifier, owning host, originating template, optional
group tag and lifecycle state. -/
structure Pod where
  id : String
  host : String
  template : String
  group : Option String
  state : PodState
  deriving DecidableEq, Repr

/-- Errors of the registries, the resolver and the coordinator. -/
inductive CoreError where
  | unknownTemplate
  | unknownHost
  | noMatch
  | ambiguousMatch
  | invalidTransition
  | unknownPod
  deriving DecidableEq, Repr

/-- Identification criteria (section 4.3): three optional filters. -/
structure Criteria where
  hostId : Option String
  podName : Option String
  group : Option String
  deriving DecidableEq, Repr

/-- A pod passes the criteria when it passes every filter that is set. -/
def Criteria.passes (c : Criteria) (p : Pod) : Bool :=
  (match c.hostId with
    | some h => decide (p.host = h)
    | none => true) &&
  (match c.podName with
    | some n => decide (p.id = n)
    | none => true) &&
  (match c.group with
    | some g => decide (p.group = some g)
    | none => true)

/-- Modelled from the spec: `identifyGroup` of the Identification Resolver
(section 4.3), of which no code is among the sources.  It intersects the
filters that are set against the pod set and returns all matches. -/
def identifyGroup (pods : List Pod) (c : Criteria) : List Pod :=
  pods.filter c.passes

/-- Modelled from the spec: `identifyOne` of the Identification Resolver
(section 4.3), of which no code is among the sources.  Same intersection; one
match is returned, none fails with `NoMatch`, more than one with
`AmbiguousMatch`. -/
def identifyOne (pods : List Pod) (c : Criteria) : Except CoreError Pod :=
  match identifyGroup pods c with
  | [] => .error .noMatch
  | [p] => .ok p
  | _ :: _ :: _ => .error .ambiguousMatch

/-- State of the daemon: template registry, host registry, pod state and the
counter from which pod identifiers are generated. -/
structure Core where
  templates : List (String × String)
  hosts : List String
  pods : List Pod
  nextId : Nat
  asyncReadiness : Bool
  deriving DecidableEq, Repr

/-- Modelled from the spec: `resolve` of the Template Registry (section 4.1),
of which no code is among the sources. -/
def resolveTemplate (s : Core) (name : String) : Except CoreError String :=
  match s.templates.lookup name with
  | some spec => .ok spec
  | none => .error .unknownTemplate

/-- Modelled from the spec: `get` of the Host Registry (section 4.2), of which
no code is among the sources. -/
def getHost (s : Core) (hostId : String) : Except CoreError String :=
  if hostId ∈ s.hosts then .ok hostId else .error .unknownHost

/-- Modelled from the spec: `create` of the Pod Lifecycle Coordinator (section
4.4), of which no code is among the sources.  The template is resolved first,
then the host; a failure of either returns its error with the state as it was.
On success a pod identifier is allocated and the pod is stored, `Running`, or
`Pending` when hosts confirm readiness asynchronously. -/
def create (s : Core) (templateName hostId : String) (group : Option String) :
    Except CoreError Pod × Core :=
  match resolveTemplate s templateName with
  | .error e => (.error e, s)
  | .ok _ =>
    match getHost s hostId with
    | .error e => (.error e, s)
    | .ok _ =>
      let pod : Pod :=
        { id := "p" ++ toString s.nextId
          host := hostId
          template := templateName
          group := group
          state := if s.asyncReadiness then .pending else .running }
      (.ok pod, { s with pods := s.pods ++ [pod], nextId := s.nextId + 1 })

/-- The pod stored under an identifier. -/
def findPod (pods : List Pod) (id : String) : Option Pod :=
  pods.find? fun p => p.id = id

/-- Puts the pod stored under an identifier into state `st`. -/
def setState : List Pod → String → PodState → List Pod
  | [], _, _ => []
  | p :: rest, id, st =>
    if p.id = id then { p with state := st } :: rest else p :: setState rest id st

/-- Modelled from the spec: `remove` of the Pod Lifecycle Coordinator (section
4.4), of which no code is among the sources.  It is legal from `Running`,
`Pending` and `Orphaned` only, passes through `Removing` and ends in `Removed`;
from any other state it fails with `InvalidTransition` and changes nothing. -/
def remove (s : Core) (id : String) : Except CoreError Unit × Core :=
  match findPod s.pods id with
  | none => (.error .unknownPod, s)
  | some p =>
    match p.state with
    | .running | .pending | .orphaned =>
      let removing := { s with pods := setState s.pods id .removing }
      (.ok (), { removing with pods := setState removing.pods id .removed })
    | .removing | .removed => (.error .invalidTransition, s)

/-! ## Sample inputs -/

/-- A window in which `register_implementors` is the function number 7. -/
def windowWithRegister : Window :=
  setProp (fun _ => .undefined) "register_implementors" (.func 7)

/-- A function environment in which every call records its first argument in
the property `seen`. -/
def recordCall : Nat → List JSValue → Window → Window :=
  fun _ args w => setProp w "seen" (args.headD .undefined)

/-- Two pods of group `g` on the hosts `h1` and `h2`. -/
def podOne : Pod :=
  { id := "p1", host := "h1", template := "t1", group := some "g", state := .running }

/-- The second pod of group `g`. -/
def podTwo : Pod :=
  { id := "p2", host := "h2", template := "t1", group := some "g", state := .running }

/-- A daemon state with template `t1`, host `h1` and the pod `p1`. -/
def sampleCore : Core :=
  { templates := [("t1", "blueprint")]
    hosts := ["h1"]
    pods := [podOne]
    nextId := 2
    asyncReadiness := false }

/-! ## Facts about the two texts -/

/-- The text of `trait.Args.js` is of the generated form; its array literal
denotes `argsEntries` and it ends in the offset comment. -/
theorem readScript_args :
    readScript argsSource =
      some (argsEntries, "//\x7b\"start\":57,\"fragment_lengths\":[1157,153]\x7d\n".data) := by
  decide

/-- The text of `trait.CommandFactory.js` is of the generated form; its array
literal denotes `commandFactoryEntries` and it ends in the offset comment, with
no line feed after it. -/
theorem readScript_commandFactory :
    readScript commandFactorySource =
      some (commandFactoryEntries, "//\x7b\"start\":57,\"fragment_lengths\":[317]\x7d".data) := by
  decide

/-- Both texts are plain ASCII. -/
theorem sources_ascii :
    (argsSource.data.all fun c => decide (c.toNat < 128)) = true ∧
    (commandFactorySource.data.all fun c => decide (c.toNat < 128)) = true := by
  decide

/-- Both array literals have pairwise distinct keys, so `Object.fromEntries`
keeps every element as it stands. -/
theorem fromEntries_tables :
    argsImplementors = argsEntries ∧ commandFactoryImplementors = commandFactoryEntries := by
  decide

/-! ## The tables -/

/-- C1: the table of `trait.Args.js` has exactly the crate keys `wormhole` and
`wormholed`; under `wormhole` it lists exactly eight structs, the root `Cli` and
one argument struct for each of the seven subcommands of section 6, every
subcommand matched by exactly one listed struct and every listed struct other
than `Cli` by exactly one subcommand; under `wormholed` it lists exactly
`ServiceArgs`. -/
theorem args_table_contents :
    crateKeys argsImplementors = ["wormhole", "wormholed"] ∧
    structsUnder argsImplementors "wormhole" =
      [some "Cli", some "GetHostsArgs", some "IdentifyPodArgs", some "IdentifyPodGroup",
        some "NewArgs", some "PodConfArgs", some "RemoveArgs", some "TemplateArg"] ∧
    (structsUnder argsImplementors "wormhole").length = 8 ∧
    specSubcommands.length = 7 ∧
    (∀ sub ∈ specSubcommands, (specArgStruct sub).isSome = true ∧
      (structsUnder argsImplementors "wormhole").count (specArgStruct sub) = 1) ∧
    (∀ n ∈ structsUnder argsImplementors "wormhole", n ≠ some "Cli" →
      (specSubcommands.filter fun sub => specArgStruct sub = n).length = 1) ∧
    (structsUnder argsImplementors "wormhole").count (some "Cli") = 1 ∧
    (specSubcommands.filter fun sub => specArgStruct sub = some "Cli") = [] ∧
    structsUnder argsImplementors "wormholed" = [some "ServiceArgs"] := by
  decide

/-- C2, as stated, fails: `trait.CommandFactory.js` lists `ServiceArgs`, and
there it stands under the crate key `wormhole`, not `wormholed`. -/
theorem commandFactory_serviceArgs_not_wormholed :
    some "ServiceArgs" ∈ allStructs commandFactoryImplementors ∧
    ¬ ServiceArgsUnderWormholed commandFactoryImplementors := by
  refine ⟨by decide, fun h => ?_⟩
  have h1 := (h ("wormhole", [["impl CommandFactory for <a class=\"struct\" href=\"wormhole/cli/struct.Cli.html\" title=\"struct wormhole::cli::Cli\">Cli</a>"], ["impl CommandFactory for <a class=\"struct\" href=\"wormhole/service/clap/struct.ServiceArgs.html\" title=\"struct wormhole::service::clap::ServiceArgs\">ServiceArgs</a>"]])
    (by decide)
    ["impl CommandFactory for <a class=\"struct\" href=\"wormhole/service/clap/struct.ServiceArgs.html\" title=\"struct wormhole::service::clap::ServiceArgs\">ServiceArgs</a>"]
    (by decide) (by decide)).1
  exact absurd h1 (by decide)

/-- Where `trait.Args.js` lists `ServiceArgs`, with the exact title path and
`href`. -/
theorem args_serviceArgs_entry :
    ∀ c ∈ argsImplementors, ∀ e ∈ c.2, entryName e = some "ServiceArgs" →
      c.1 = "wormholed" ∧ entryTitlePath e = some "wormholed::ServiceArgs" ∧
      entryHref e = some "wormholed/struct.ServiceArgs.html" := by
  decide

/-- C2, amended: in `trait.Args.js` every entry naming `ServiceArgs` stands under
the crate key `wormholed` with title path and `href` starting with `wormholed`;
in `trait.CommandFactory.js` every entry naming `ServiceArgs` stands under the
crate key `wormhole`, with title path `wormhole::service::clap::ServiceArgs` and
`href` `wormhole/service/clap/struct.ServiceArgs.html`.  Both tables list it. -/
theorem serviceArgs_crates :
    (some "ServiceArgs" ∈ allStructs argsImplementors ∧
      ServiceArgsUnderWormholed argsImplementors) ∧
    (some "ServiceArgs" ∈ allStructs commandFactoryImplementors ∧
      ∀ c ∈ commandFactoryImplementors, ∀ e ∈ c.2, entryName e = some "ServiceArgs" →
        c.1 = "wormhole" ∧
        entryTitlePath e = some "wormhole::service::clap::ServiceArgs" ∧
        entryHref e = some "wormhole/service/clap/struct.ServiceArgs.html") := by
  refine ⟨⟨by decide, ?_⟩, by decide, by decide⟩
  intro c hc e he hn
  obtain ⟨h1, h2, h3⟩ := args_serviceArgs_entry c hc e he hn
  exact ⟨h1, ⟨_, h2, by decide⟩, ⟨_, h3, by decide⟩⟩

/-- C3: across all its crate keys the table of `trait.CommandFactory.js` lists
exactly two structs, `Cli` and `ServiceArgs`, each once and nothing else. -/
theorem commandFactory_table_contents :
    allStructs commandFactoryImplementors = [some "Cli", some "ServiceArgs"] ∧
    (allStructs commandFactoryImplementors).length = 2 ∧
    (allStructs commandFactoryImplementors).count (some "Cli") = 1 ∧
    (allStructs commandFactoryImplementors).count (some "ServiceArgs") = 1 ∧
    (commandFactoryImplementors.map fun c => c.2.length).sum = 2 := by
  decide

/-- C4: in both scripts the trailing comment describes the text.  It reads
`start` 57 with lengths 1157 and 153 in `trait.Args.js` and `start` 57 with
length 317 in `trait.CommandFactory.js`; the character before `start` is the
bracket that opens the array handed to `Object.fromEntries`; there are as many
lengths as crate entries; fragment `i` is exactly crate entry `i`, preceded by
its comma when `i > 0`; and the character after the last fragment is the
bracket that closes the array. -/
theorem offsets_describe_text :
    OffsetsDescribe argsSource 57 [1157, 153] argsEntries ∧
    OffsetsDescribe commandFactorySource 57 [317] commandFactoryEntries := by
  decide

/-- C8: every entry of both tables is a list of exactly one string, the
documentation string rustdoc writes for the trait of the file and a path of
identifiers whose first segment is the crate key the entry stands under; the
name shown is the last segment and the `href` is derived from the path. -/
theorem entries_shape :
    (∀ c ∈ argsImplementors, ∀ e ∈ c.2, ∃ path : List String,
      (∀ seg ∈ path, isIdent seg = true) ∧ path.head? = some c.1 ∧
      e = [docString "Args" path]) ∧
    (∀ c ∈ commandFactoryImplementors, ∀ e ∈ c.2, ∃ path : List String,
      (∀ seg ∈ path, isIdent seg = true) ∧ path.head? = some c.1 ∧
      e = [docString "CommandFactory" path]) := by
  have h1 : ∀ c ∈ argsImplementors, ∀ e ∈ c.2,
      (∀ seg ∈ entryPath e, isIdent seg = true) ∧ (entryPath e).head? = some c.1 ∧
      e = [docString "Args" (entryPath e)] := by decide
  have h2 : ∀ c ∈ commandFactoryImplementors, ∀ e ∈ c.2,
      (∀ seg ∈ entryPath e, isIdent seg = true) ∧ (entryPath e).head? = some c.1 ∧
      e = [docString "CommandFactory" (entryPath e)] := by decide
  exact ⟨fun c hc e he => ⟨_, h1 c hc e he⟩, fun c hc e he => ⟨_, h2 c hc e he⟩⟩

/-- C10: in both scripts the crate names of the array literal are strictly
ascending, hence pairwise distinct, and `Object.fromEntries` yields a table with
one key per element and every element kept; within each crate the entries are
strictly ascending by struct name and pairwise distinct. -/
theorem entries_sorted :
    ((argsEntries.map Prod.fst).Pairwise (fun a b => jsLt a b = true) ∧
      (argsEntries.map Prod.fst).Nodup ∧
      fromEntries argsEntries = argsEntries ∧
      (fromEntries argsEntries).length = argsEntries.length ∧
      ∀ c ∈ argsEntries, c.2.Pairwise (fun a b => entryLt a b = true) ∧ c.2.Nodup) ∧
    ((commandFactoryEntries.map Prod.fst).Pairwise (fun a b => jsLt a b = true) ∧
      (commandFactoryEntries.map Prod.fst).Nodup ∧
      fromEntries commandFactoryEntries = commandFactoryEntries ∧
      (fromEntries commandFactoryEntries).length = commandFactoryEntries.length ∧
      ∀ c ∈ commandFactoryEntries,
        c.2.Pairwise (fun a b => entryLt a b = true) ∧ c.2.Nodup) := by
  decide

/-! ## Handing over the table -/

/-- C9: running either script in a window `w`.  When `register_implementors`
holds a function, the script calls it once with the table of the file as only
argument and assigns nothing itself, so the window afterwards is the one the
callee leaves.  When `register_implementors` is falsy, absent included, the
script calls nothing and sets `pending_implementors` to the same table, leaving
every other property as it was. -/
theorem script_hand_over (apply : Nat → List JSValue → Window → Window) (w : Window)
    (src : String) (tbl : List CrateEntry)
    (hfile : (src, tbl) ∈ [(argsSource, argsImplementors),
      (commandFactorySource, commandFactoryImplementors)]) :
    (∀ f, w "register_implementors" = .func f →
      ∃ r, runScript src apply w = some r ∧
        r.calls = [{ callee := f, args := [.table tbl] }] ∧
        r.writes = [] ∧ r.window = apply f [.table tbl] w ∧ r.completion = .normal) ∧
    (truthy (w "register_implementors") = false →
      ∃ r, runScript src apply w = some r ∧
        r.calls = [] ∧ r.writes = ["pending_implementors"] ∧
        r.window "pending_implementors" = .table tbl ∧
        (∀ k, k ≠ "pending_implementors" → r.window k = w k) ∧
        r.completion = .normal) := by
  have hsrc : readScript src = some (tbl, (readScript src).elim [] Prod.snd) ∧
      fromEntries tbl = tbl := by
    simp only [List.mem_cons, Prod.mk.injEq, List.mem_singleton, List.not_mem_nil,
      or_false] at hfile
    rcases hfile with ⟨rfl, rfl⟩ | ⟨rfl, rfl⟩
    · rw [readScript_args, fromEntries_tables.1]
      exact ⟨rfl, by decide⟩
    · rw [readScript_commandFactory, fromEntries_tables.2]
      exact ⟨rfl, by decide⟩
  obtain ⟨hread, hfrom⟩ := hsrc
  constructor
  · intro f hf
    refine ⟨runBody tbl apply w, ?_, ?_⟩
    · rw [runScript, hread]
    · simp [runBody, hf, truthy, hfrom]
  · intro hfalse
    refine ⟨runBody tbl apply w, ?_, ?_⟩
    · rw [runScript, hread]
    · simp [runBody, hfalse, hfrom, setProp]
      intro k hk
      simp [hk]

/-- Witness for C9: `trait.Args.js` in a window whose
`register_implementors` is a function. -/
theorem script_hand_over_witness :
    (argsSource, argsImplementors) ∈ [(argsSource, argsImplementors),
      (commandFactorySource, commandFactoryImplementors)] ∧
    ∃ r, runScript argsSource recordCall windowWithRegister = some r ∧
      r.calls = [{ callee := 7, args := [.table argsImplementors] }] ∧
      r.writes = [] ∧
      r.window = recordCall 7 [.table argsImplementors] windowWithRegister ∧
      r.completion = .normal :=
  ⟨List.mem_cons_self _ _,
    (script_hand_over recordCall windowWithRegister argsSource argsImplementors
      (List.mem_cons_self _ _)).1 7 rfl⟩

/-! ## The coordination core -/

/-- C5: `identifyOne` intersects the filters that are set against the pod set;
it returns a pod exactly when one pod matches, and then that pod; it fails with
`NoMatch` exactly when none matches and with `AmbiguousMatch` exactly when more
than one matches.  For two pods of one group on different hosts,
`identifyGroup` on the group returns both and `identifyOne` fails with
`AmbiguousMatch`. -/
theorem identifyOne_cardinality (pods : List Pod) (c : Criteria) :
    (∀ p, p ∈ identifyGroup pods c ↔
      p ∈ pods ∧ (∀ h, c.hostId = some h → p.host = h) ∧
        (∀ n, c.podName = some n → p.id = n) ∧
        (∀ g, c.group = some g → p.group = some g)) ∧
    (∀ p, identifyOne pods c = .ok p ↔ identifyGroup pods c = [p]) ∧
    ((∃ p, identifyOne pods c = .ok p) ↔ (identifyGroup pods c).length = 1) ∧
    (identifyOne pods c = .error .noMatch ↔ (identifyGroup pods c).length = 0) ∧
    (identifyOne pods c = .error .ambiguousMatch ↔ 1 < (identifyGroup pods c).length) ∧
    (∀ (g : String) (p1 p2 : Pod), p1.group = some g → p2.group = some g →
      p1.host ≠ p2.host →
      identifyGroup [p1, p2] { hostId := none, podName := none, group := some g } = [p1, p2] ∧
      identifyOne [p1, p2] { hostId := none, podName := none, group := some g } =
        .error .ambiguousMatch) := by
  refine ⟨?_, ?_, ?_, ?_, ?_, ?_⟩
  · intro p
    obtain ⟨h, n, g⟩ := c
    cases h <;> cases n <;> cases g <;>
      simp [identifyGroup, Criteria.passes, List.mem_filter, and_assoc]
  · intro p
    unfold identifyOne
    rcases identifyGroup pods c with _ | ⟨a, _ | ⟨b, t⟩⟩ <;> simp
  · unfold identifyOne
    rcases identifyGroup pods c with _ | ⟨a, _ | ⟨b, t⟩⟩ <;> simp
  · unfold identifyOne
    rcases identifyGroup pods c with _ | ⟨a, _ | ⟨b, t⟩⟩ <;> simp
  · unfold identifyOne
    rcases identifyGroup pods c with _ | ⟨a, _ | ⟨b, t⟩⟩ <;> simp
  · intro g p1 p2 h1 h2 _
    simp [identifyOne, identifyGroup, Criteria.passes, h1, h2]

/-- Witness for C5: the pods `p1` on `h1` and `p2` on
`h2`, both of group `g`. -/
theorem identifyOne_cardinality_witness :
    podOne.group = some "g" ∧ podTwo.group = some "g" ∧ podOne.host ≠ podTwo.host ∧
    identifyGroup [podOne, podTwo] { hostId := none, podName := none, group := some "g" } =
      [podOne, podTwo] ∧
    identifyOne [podOne, podTwo] { hostId := none, podName := none, group := some "g" } =
      .error .ambiguousMatch :=
  ⟨rfl, rfl, by decide,
    (identifyOne_cardinality [podOne, podTwo]
      { hostId := none, podName := none, group := some "g" }).2.2.2.2.2
      "g" podOne podTwo rfl rfl (by decide)⟩

/-- Looking up a pod after its state was set. -/
theorem findPod_setState (pods : List Pod) (id : String) (st : PodState) :
    findPod (setState pods id st) id =
      (findPod pods id).map fun p => { p with state := st } := by
  induction pods with
  | nil => rfl
  | cons p rest ih =>
    by_cases h : p.id = id
    · simp [setState, findPod, h]
    · have ih2 := ih
      simp only [findPod] at ih2
      simp [setState, findPod, h, ih2]

/-- C6: for a pod stored in state `Running`, `Pending` or `Orphaned`, the first
`remove` succeeds and leaves the pod `Removed`; the second `remove` on the same
identifier fails with `InvalidTransition` and leaves the state as the first
call left it. -/
theorem remove_twice (s : Core) (id : String) (p : Pod)
    (hp : findPod s.pods id = some p)
    (hs : p.state = .running ∨ p.state = .pending ∨ p.state = .orphaned) :
    (remove s id).1 = .ok () ∧
    findPod (remove s id).2.pods id = some { p with state := .removed } ∧
    remove (remove s id).2 id = (.error .invalidTransition, (remove s id).2) := by
  have h1 : remove s id = (.ok (),
      { s with pods := setState (setState s.pods id .removing) id .removed }) := by
    rcases hs with h | h | h <;> simp [remove, hp, h]
  have h2 : findPod (setState (setState s.pods id .removing) id .removed) id =
      some { p with state := .removed } := by
    rw [findPod_setState, findPod_setState, hp]
    rfl
  rw [h1]
  refine ⟨rfl, h2, ?_⟩
  simp [remove, h2]

/-- Witness for C6: the running pod `p1` of the sample state. -/
theorem remove_twice_witness :
    findPod sampleCore.pods "p1" = some podOne ∧
    (podOne.state = .running ∨ podOne.state = .pending ∨ podOne.state = .orphaned) ∧
    (remove sampleCore "p1").1 = .ok () ∧
    findPod (remove sampleCore "p1").2.pods "p1" = some { podOne with state := .removed } ∧
    remove (remove sampleCore "p1").2 "p1" =
      (.error .invalidTransition, (remove sampleCore "p1").2) :=
  ⟨by decide, Or.inl rfl, remove_twice sampleCore "p1" podOne (by decide) (Or.inl rfl)⟩

/-- C7: `create` is all or nothing.  With the template name not registered it
fails with `UnknownTemplate`; with the template registered and the host not
registered it fails with `UnknownHost`; whenever either is not registered it
fails with one of the two, and the template registry, the host registry and the
pod state after the call are those before it. -/
theorem create_all_or_nothing (s : Core) (templateName hostId : String)
    (group : Option String) :
    (s.templates.lookup templateName = none →
      create s templateName hostId group = (.error .unknownTemplate, s)) ∧
    (s.templates.lookup templateName ≠ none → hostId ∉ s.hosts →
      create s templateName hostId group = (.error .unknownHost, s)) ∧
    (s.templates.lookup templateName = none ∨ hostId ∉ s.hosts →
      ((create s templateName hostId group).1 = .error .unknownTemplate ∨
        (create s templateName hostId group).1 = .error .unknownHost) ∧
      (create s templateName hostId group).2.templates = s.templates ∧
      (create s templateName hostId group).2.hosts = s.hosts ∧
      (create s templateName hostId group).2.pods = s.pods ∧
      (create s templateName hostId group).2 = s) := by
  have hT : s.templates.lookup templateName = none →
      create s templateName hostId group = (.error .unknownTemplate, s) := by
    intro h
    simp [create, resolveTemplate, h]
  have hH : s.templates.lookup templateName ≠ none → hostId ∉ s.hosts →
      create s templateName hostId group = (.error .unknownHost, s) := by
    intro h1 h2
    obtain ⟨spec, hspec⟩ := Option.ne_none_iff_exists'.mp h1
    simp [create, resolveTemplate, getHost, hspec, h2]
  refine ⟨hT, hH, ?_⟩
  intro h
  by_cases ht : s.templates.lookup templateName = none
  · rw [hT ht]
    simp
  · rcases h with h | h
    · exact absurd h ht
    · rw [hH ht h]
      simp

/-- Witness for C7: the template `t9` is not registered in
the sample state. -/
theorem create_all_or_nothing_witness :
    sampleCore.templates.lookup "t9" = none ∧
    create sampleCore "t9" "h1" none = (.error .unknownTemplate, sampleCore) :=
  ⟨by decide, (create_all_or_nothing sampleCore "t9" "h1" none).1 (by decide)⟩

end Wormhole
